import Mathlib

/-!
Shallow embedding of the Playslave audio output engine
(`src/audio/audio_output.cpp`).

Samples are `cfg.bps` bytes wide; a byte is modelled as a `Nat`.  The
`AudioDecoder` and the ring buffer live outside the given sources, so they
are modelled from the spec (sections 4.1 and 6): the decoder is an oracle
queue of frames (`decoderQueue`; an empty frame signals exhaustion) and the
ring buffer is a FIFO of bytes holding whole samples, with capacities
counted in samples.
-/

namespace Playslave

/-- Value of `LONG_MAX` used by `ReadSamplesToOutput` (64-bit long). -/
def LONG_MAX : Nat := 2 ^ 63 - 1

/-- Engine constants: bytes per sample (the decoder's fixed sample width),
`RINGBUF_SIZE` in samples, and `SPINUP_SIZE` in samples.  Modelled from the
spec: `constants.h` is not among the given sources. -/
structure Config where
  bps : Nat
  cap : Nat
  spin : Nat
deriving DecidableEq

/-- State of an `AudioOutput`: the current decoded frame (a byte list), the
frame iterator as a byte index, the ring buffer contents (bytes, whole
samples), the play-position sample counter, the `file_ended` flag, and the
decoder oracle (remaining frames the decoder will yield; once empty, every
`Decode` yields the empty frame). -/
structure AOState where
  frame : List Nat
  frameIt : Nat
  ringBuf : List Nat
  positionSampleCount : Nat
  fileEnded : Bool
  decoderQueue : List (List Nat)
deriving DecidableEq

/-- Message thrown on a short ring-buffer write (`messages.h`). -/
def MSG_OUTPUT_RINGWRITE : String := "Ring buffer write error"

/-- `AudioOutput::ByteCountForSampleCount`: samples to bytes. -/
def ByteCountForSampleCount (cfg : Config) (samples : Nat) : Nat :=
  samples * cfg.bps

/-- `AudioOutput::SampleCountForByteCount`: bytes to samples. -/
def SampleCountForByteCount (cfg : Config) (bytes : Nat) : Nat :=
  bytes / cfg.bps

/-- Modelled from the spec (section 4.1): `RingBuffer::WriteCapacity`, the
free space in samples. -/
def RingBufferWriteCapacity (cfg : Config) (st : AOState) : Nat :=
  cfg.cap - SampleCountForByteCount cfg st.ringBuf.length

/-- Modelled from the spec (section 4.1): `RingBuffer::ReadCapacity`, the
unread samples available. -/
def ReadCapacity (cfg : Config) (st : AOState) : Nat :=
  SampleCountForByteCount cfg st.ringBuf.length

/-- Modelled from the spec (section 4.1): `RingBuffer::Write` copies up to
`count` samples from `src` into free space and returns the number actually
written (`min count free`). -/
def ringWrite (cfg : Config) (st : AOState) (src : List Nat) (count : Nat) :
    Nat × AOState :=
  let written := min count (RingBufferWriteCapacity cfg st)
  (written,
   { st with ringBuf := st.ringBuf ++ src.take (written * cfg.bps) })

/-- Modelled from the spec (section 4.1): `RingBuffer::Read` copies up to
`count` samples out and returns the number actually copied (fewer only when
insufficient data is available).  Yields the copied count, the copied
bytes, and the new state. -/
def ringRead (cfg : Config) (st : AOState) (count : Nat) :
    Nat × List Nat × AOState :=
  let r := min count (ReadCapacity cfg st)
  (r, st.ringBuf.take (r * cfg.bps),
   { st with ringBuf := st.ringBuf.drop (r * cfg.bps) })

/-- Modelled from the spec (section 4.1): `RingBuffer::Flush` discards all
buffered content. -/
def ringFlush (st : AOState) : AOState :=
  { st with ringBuf := [] }

/-- `AudioOutput::ClearFrame`: empty the frame, put the iterator at its end
(index 0 of the empty frame), and clear `file_ended`. -/
def ClearFrame (st : AOState) : AOState :=
  { st with frame := [], frameIt := 0, fileEnded := false }

/-- `AudioOutput::FrameFinished`: the iterator is at or past the frame
end. -/
def FrameFinished (st : AOState) : Bool :=
  decide (st.frame.length ≤ st.frameIt)

/-- `AudioDecoder::Decode`, modelled from the spec (section 6): yields the
next frame from the oracle queue, or the empty frame once exhausted. -/
def Decode (st : AOState) : List Nat × AOState :=
  match st.decoderQueue with
  | [] => ([], st)
  | f :: rest => (f, { st with decoderQueue := rest })

/-- The frame the next `Decode` would yield. -/
def decodeHead (st : AOState) : List Nat :=
  match st.decoderQueue with
  | [] => []
  | f :: _ => f

/-- `AudioOutput::DecodeIfFrameEmpty`: fetch a new frame if the current one
is finished; return whether the (possibly new) frame is non-empty. -/
def DecodeIfFrameEmpty (st : AOState) : Bool × AOState :=
  if FrameFinished st then
    let p := Decode st
    (!p.1.isEmpty, { p.2 with frame := p.1, frameIt := 0 })
  else
    (!st.frame.isEmpty, st)

/-- `AudioOutput::AdvanceFrameIterator`: advance the iterator by the byte
count for `sample_count` samples, emptying the frame once finished. -/
def AdvanceFrameIterator (cfg : Config) (st : AOState) (sample_count : Nat) :
    AOState :=
  let byte_count := ByteCountForSampleCount cfg sample_count
  let st1 := { st with frameIt := st.frameIt + byte_count }
  if FrameFinished st1 then ClearFrame st1 else st1

/-- `AudioOutput::RingBufferTransferCount`: whole samples remaining in the
frame, capped by the ring buffer's free space. -/
def RingBufferTransferCount (cfg : Config) (st : AOState) : Nat :=
  min (SampleCountForByteCount cfg (st.frame.length - st.frameIt))
      (RingBufferWriteCapacity cfg st)

/-- `AudioOutput::WriteToRingBuffer`: write `sample_count` samples from the
frame iterator; a short write throws `InternalError`, otherwise the frame
iterator advances by the written count. -/
def WriteToRingBuffer (cfg : Config) (st : AOState) (sample_count : Nat) :
    Except String AOState :=
  let p := ringWrite cfg st (st.frame.drop st.frameIt) sample_count
  if p.1 ≠ sample_count then Except.error MSG_OUTPUT_RINGWRITE
  else Except.ok (AdvanceFrameIterator cfg p.2 p.1)

/-- `AudioOutput::WriteAllAvailableToRingBuffer`: write the transfer count
if it is strictly positive, otherwise do nothing. -/
def WriteAllAvailableToRingBuffer (cfg : Config) (st : AOState) :
    Except String AOState :=
  let count := RingBufferTransferCount cfg st
  if 0 < count then WriteToRingBuffer cfg st count else Except.ok st

/-- `AudioOutput::Update`: top up the ring buffer from the decoder; returns
whether more frames are available, recording `file_ended` as its
negation. -/
def Update (cfg : Config) (st : AOState) : Except String (Bool × AOState) :=
  let p := DecodeIfFrameEmpty st
  if p.1 then
    match WriteAllAvailableToRingBuffer cfg p.2 with
    | Except.error e => Except.error e
    | Except.ok st2 => Except.ok (true, { st2 with fileEnded := false })
  else
    Except.ok (false, { p.2 with fileEnded := true })

/-- `AudioOutput::SeekToPositionMicroseconds`: reposition the decoder
(whose post-seek frame queue is the oracle `newQueue`), recompute the play
position via the decoder's time-to-samples conversion, clear the frame and
flush the ring buffer.  The conversion is an abstract decoder function
(modelled from the spec, section 6). -/
def SeekToPositionMicroseconds (sampleCountForTime : Nat → Nat)
    (st : AOState) (microseconds : Nat) (newQueue : List (List Nat)) :
    AOState :=
  ringFlush (ClearFrame
    { st with decoderQueue := newQueue,
              positionSampleCount := sampleCountForTime microseconds })

/-- `AudioOutput::CurrentPositionMicroseconds`: the decoder's conversion of
the play-position sample count to time (abstract decoder function,
modelled from the spec, section 6). -/
def CurrentPositionMicroseconds (timeForSampleCount : Nat → Nat)
    (st : AOState) : Nat :=
  timeForSampleCount st.positionSampleCount

/-- Guard of the `PreFillRingBuffer` loop:
`more && c > 0 && RINGBUF_SIZE - c < SPINUP_SIZE`. -/
def PreFillGuard (cfg : Config) (more : Bool) (st : AOState) : Bool :=
  let c := RingBufferWriteCapacity cfg st
  more && decide (0 < c) && decide (cfg.cap - c < cfg.spin)

/-- `AudioOutput::PreFillRingBuffer` as a fuel-indexed loop: `Except.ok
(some st)` is normal loop exit in state `st`, `Except.ok none` means the
fuel ran out before the loop exited. -/
def PreFillLoop (cfg : Config) : Nat → Bool → AOState →
    Except String (Option AOState)
  | 0, _, _ => Except.ok none
  | Nat.succ n, more, st =>
    if PreFillGuard cfg more st then
      match Update cfg st with
      | Except.error e => Except.error e
      | Except.ok p => PreFillLoop cfg n p.1 p.2
    else Except.ok (some st)

/-- PortAudio stream callback results used by the engine. -/
inductive PaResult where
  | paContinue
  | paComplete
deriving DecidableEq

/-- Overwrite `dst` starting at byte offset `p` with the bytes of `src`,
clipped to `dst`'s extent (the destination buffer has fixed size). -/
def setAt (dst : List Nat) (p : Nat) (src : List Nat) : List Nat :=
  dst.take p ++ src.take (dst.length - p) ++ dst.drop (p + src.length)

/-- `AudioOutput::ReadSamplesToOutput`: read
`min(output_capacity, buffered_count, LONG_MAX)` samples from the ring
buffer into the destination at byte offset `outOff`, advance the (by
reference) output pointer by the ring buffer's copied count — a sample
count, not a byte count, exactly as in the source — advance the play
position by the transfer count and return it.  Yields
(return value, new output offset, new destination, new state). -/
def ReadSamplesToOutput (cfg : Config) (st : AOState) (dst : List Nat)
    (outOff : Nat) (output_capacity buffered_count : Nat) :
    Nat × Nat × List Nat × AOState :=
  let transfer_sample_count :=
    min (min output_capacity buffered_count) LONG_MAX
  let r := ringRead cfg st transfer_sample_count
  let st2 := { r.2.2 with positionSampleCount :=
                 r.2.2.positionSampleCount + transfer_sample_count }
  (transfer_sample_count, outOff + r.1, setAt dst outOff r.2.1, st2)

/-- `AudioOutput::PlayCallbackSuccess`: drain into the destination at the
step's (by value) output pointer; the advanced pointer computed by
`ReadSamplesToOutput` is discarded on return, as in the source, where the
output pointer parameter is passed by value.  Yields
(result pair, new destination, new state). -/
def PlayCallbackSuccess (cfg : Config) (st : AOState) (dst : List Nat)
    (outOff : Nat) (avail frames_per_buf : Nat) (ins : PaResult × Nat) :
    (PaResult × Nat) × List Nat × AOState :=
  let samples_pa_wants := frames_per_buf - ins.2
  let r := ReadSamplesToOutput cfg st dst outOff avail samples_pa_wants
  ((PaResult.paContinue, ins.2 + r.1), r.2.2.1, r.2.2.2)

/-- `AudioOutput::PlayCallbackFailure`: with the file ended, report
completion; otherwise zero `frames_per_buf` samples' worth of bytes at the
step's output pointer and report the whole request satisfied. -/
def PlayCallbackFailure (cfg : Config) (st : AOState) (dst : List Nat)
    (outOff : Nat) (frames_per_buf : Nat) (ins : PaResult × Nat) :
    (PaResult × Nat) × List Nat × AOState :=
  if st.fileEnded then ((PaResult.paComplete, ins.2), dst, st)
  else
    ((PaResult.paContinue, frames_per_buf),
     setAt dst outOff
       (List.replicate (ByteCountForSampleCount cfg frames_per_buf) 0),
     st)

/-- `AudioOutput::PlayCallbackStep`: dispatch on the ring buffer's read
capacity. -/
def PlayCallbackStep (cfg : Config) (st : AOState) (dst : List Nat)
    (outOff : Nat) (frames_per_buf : Nat) (ins : PaResult × Nat) :
    (PaResult × Nat) × List Nat × AOState :=
  let avail := ReadCapacity cfg st
  if avail = 0 then
    PlayCallbackFailure cfg st dst outOff frames_per_buf ins
  else
    PlayCallbackSuccess cfg st dst outOff avail frames_per_buf ins

/-- Producer writes that may land in the ring buffer between callback
steps, permitted by the spec's single-producer single-consumer discipline
(section 5): append the given bytes, clipped to the free space. -/
def applyRefill (cfg : Config) (st : AOState) (extra : List Nat) : AOState :=
  { st with ringBuf :=
      st.ringBuf ++ extra.take (RingBufferWriteCapacity cfg st * cfg.bps) }

/-- Loop body of `AudioOutput::paCallbackFun`: while the result is
`paContinue` and fewer than `frames_per_buf` samples are counted, run one
step.  `cout` is the destination pointer variable of `paCallbackFun`; the
source never reassigns it, so it is passed through unchanged.  Before each
step the producer may refill the ring buffer (head of `refills`). -/
def paCallbackLoop (cfg : Config) : Nat → List (List Nat) → AOState →
    List Nat → Nat → (PaResult × Nat) → Nat →
    (PaResult × Nat) × List Nat × AOState
  | 0, _, st, dst, _, res, _ => (res, dst, st)
  | Nat.succ n, refills, st, dst, cout, res, frames_per_buf =>
    if res.1 = PaResult.paContinue ∧ res.2 < frames_per_buf then
      let st1 := applyRefill cfg st (refills.headD [])
      let r := PlayCallbackStep cfg st1 dst cout frames_per_buf res
      paCallbackLoop cfg n refills.tail r.2.2 r.2.1 cout r.1 frames_per_buf
    else (res, dst, st)

/-- `AudioOutput::paCallbackFun`: run the callback loop from `(paContinue,
0)` with the destination pointer at the start of the buffer.  The fuel
`frames_per_buf + 2` exceeds the loop's possible iteration count, since
every iteration either strictly increases the counted samples or makes the
next guard false. -/
def paCallbackFun (cfg : Config) (refills : List (List Nat)) (st : AOState)
    (dst : List Nat) (frames_per_buf : Nat) :
    (PaResult × Nat) × List Nat × AOState :=
  paCallbackLoop cfg (frames_per_buf + 2) refills st dst 0
    (PaResult.paContinue, 0) frames_per_buf

/-- The `AudioOutput` constructor's engine state: zero play position,
cleared frame, empty ring buffer, with the decoder about to yield
`queue`. -/
def initState (queue : List (List Nat)) : AOState :=
  { frame := [], frameIt := 0, ringBuf := [], positionSampleCount := 0,
    fileEnded := false, decoderQueue := queue }

/-- Whole-sample well-formedness: the ring buffer holds whole samples and
fits its capacity, the frame and its iterator sit on sample boundaries,
and every frame the decoder will yield consists of whole samples. -/
def WholeSamples (cfg : Config) (st : AOState) : Prop :=
  cfg.bps ∣ st.ringBuf.length ∧
  st.ringBuf.length ≤ cfg.cap * cfg.bps ∧
  cfg.bps ∣ st.frame.length ∧
  cfg.bps ∣ st.frameIt ∧
  ∀ f ∈ st.decoderQueue, cfg.bps ∣ f.length

end Playslave

namespace Playslave

theorem writeToRingBuffer_eq_ok (cfg : Config) (st : AOState) (sc : Nat)
    (h : sc ≤ RingBufferWriteCapacity cfg st) :
    WriteToRingBuffer cfg st sc = Except.ok (AdvanceFrameIterator cfg
      { st with ringBuf :=
          st.ringBuf ++ (st.frame.drop st.frameIt).take (sc * cfg.bps) }
      sc) := by
  unfold WriteToRingBuffer ringWrite
  simp [Nat.min_eq_left h]

theorem writeAllAvailable_ok (cfg : Config) (st : AOState) :
    ∃ st2, WriteAllAvailableToRingBuffer cfg st = Except.ok st2 := by
  unfold WriteAllAvailableToRingBuffer
  by_cases h : 0 < RingBufferTransferCount cfg st
  · rw [if_pos h,
      writeToRingBuffer_eq_ok cfg st (RingBufferTransferCount cfg st)
        (by unfold RingBufferTransferCount; exact Nat.min_le_right _ _)]
    exact ⟨_, rfl⟩
  · rw [if_neg h]
    exact ⟨st, rfl⟩

theorem update_ok (cfg : Config) (st : AOState) :
    ∃ b st2, Update cfg st = Except.ok (b, st2) ∧ st2.fileEnded = !b := by
  unfold Update
  by_cases h : (DecodeIfFrameEmpty st).1
  · obtain ⟨st2, h2⟩ := writeAllAvailable_ok cfg (DecodeIfFrameEmpty st).2
    rw [if_pos h, h2]
    exact ⟨true, _, rfl, rfl⟩
  · rw [if_neg h]
    exact ⟨false, _, rfl, rfl⟩

end Playslave

namespace Playslave

theorem advanceFrameIterator_cases (cfg : Config) (st : AOState) (sc : Nat) :
    ((AdvanceFrameIterator cfg st sc).frame = [] ∧
      (AdvanceFrameIterator cfg st sc).frameIt = 0) ∨
    ((AdvanceFrameIterator cfg st sc).frame = st.frame ∧
      (AdvanceFrameIterator cfg st sc).frameIt =
        st.frameIt + ByteCountForSampleCount cfg sc ∧
      (AdvanceFrameIterator cfg st sc).frameIt < st.frame.length) := by
  unfold AdvanceFrameIterator
  by_cases h : FrameFinished { st with
      frameIt := st.frameIt + ByteCountForSampleCount cfg sc }
  · rw [if_pos h]
    exact Or.inl ⟨rfl, rfl⟩
  · rw [if_neg h]
    refine Or.inr ⟨rfl, rfl, ?_⟩
    have h2 : st.frameIt + ByteCountForSampleCount cfg sc <
        st.frame.length := by
      simpa [FrameFinished] using h
    exact h2

/-- C5: during `Update`, the fatal `InternalError` is raised by
`WriteToRingBuffer` exactly when the ring buffer's `Write` reports a
written count (`min` of the request and the free space) different from the
requested strictly positive sample count; with a full-count write there is
no error and the frame iterator advances by the corresponding byte count
(or the frame is consumed and emptied when the advance finishes it). -/
theorem c5_ring_write_error_iff (cfg : Config) (st : AOState)
    (sample_count : Nat) (hpos : 0 < sample_count) :
    ((∃ e, WriteToRingBuffer cfg st sample_count = Except.error e) ↔
      min sample_count (RingBufferWriteCapacity cfg st) ≠ sample_count) ∧
    (min sample_count (RingBufferWriteCapacity cfg st) = sample_count →
      ∃ st2, WriteToRingBuffer cfg st sample_count = Except.ok st2 ∧
        ((st2.frame = [] ∧ st2.frameIt = 0) ∨
          st2.frameIt =
            st.frameIt + ByteCountForSampleCount cfg sample_count)) := by
  constructor
  · constructor
    · rintro ⟨e, he⟩ hmin
      rw [writeToRingBuffer_eq_ok cfg st sample_count
        (min_eq_left_iff.mp hmin)] at he
      exact Except.noConfusion he
    · intro hmin
      refine ⟨MSG_OUTPUT_RINGWRITE, ?_⟩
      unfold WriteToRingBuffer ringWrite
      simp [hmin]
  · intro hmin
    rw [writeToRingBuffer_eq_ok cfg st sample_count
      (min_eq_left_iff.mp hmin)]
    refine ⟨_, rfl, ?_⟩
    rcases advanceFrameIterator_cases cfg
        { st with ringBuf := st.ringBuf ++
            (st.frame.drop st.frameIt).take (sample_count * cfg.bps) }
        sample_count with h | h
    · exact Or.inl ⟨h.1, h.2⟩
    · exact Or.inr h.2.1

/-- Witness for C5 at a concrete input: one sample requested from a state
with one whole sample remaining in the frame and free ring space. -/
theorem c5_ring_write_error_iff_witness :
    ((∃ e, WriteToRingBuffer ⟨1, 8, 4⟩ ⟨[3, 4], 0, [], 0, false, []⟩ 1 =
        Except.error e) ↔
      min 1 (RingBufferWriteCapacity ⟨1, 8, 4⟩
        ⟨[3, 4], 0, [], 0, false, []⟩) ≠ 1) ∧
    (min 1 (RingBufferWriteCapacity ⟨1, 8, 4⟩
        ⟨[3, 4], 0, [], 0, false, []⟩) = 1 →
      ∃ st2, WriteToRingBuffer ⟨1, 8, 4⟩ ⟨[3, 4], 0, [], 0, false, []⟩ 1 =
          Except.ok st2 ∧
        ((st2.frame = [] ∧ st2.frameIt = 0) ∨
          st2.frameIt = 0 + ByteCountForSampleCount ⟨1, 8, 4⟩ 1)) :=
  c5_ring_write_error_iff ⟨1, 8, 4⟩ ⟨[3, 4], 0, [], 0, false, []⟩ 1
    (by decide)

/-- C6: `SeekToPositionMicroseconds` followed by
`CurrentPositionMicroseconds` yields the decoder's time for the decoder's
sample count for the target, and afterwards the ring buffer has zero read
capacity, the frame is empty and the stream-ended flag is cleared. -/
theorem c6_seek_roundtrip (sampleCountForTime timeForSampleCount : Nat → Nat)
    (cfg : Config) (st : AOState) (t : Nat) (newQueue : List (List Nat)) :
    CurrentPositionMicroseconds timeForSampleCount
        (SeekToPositionMicroseconds sampleCountForTime st t newQueue) =
      timeForSampleCount (sampleCountForTime t) ∧
    ReadCapacity cfg
        (SeekToPositionMicroseconds sampleCountForTime st t newQueue) = 0 ∧
    (SeekToPositionMicroseconds sampleCountForTime st t newQueue).frame
        = [] ∧
    (SeekToPositionMicroseconds sampleCountForTime st t newQueue).fileEnded
        = false := by
  refine ⟨rfl, ?_, rfl, rfl⟩
  simp [ReadCapacity, SeekToPositionMicroseconds, ringFlush, ClearFrame,
    SampleCountForByteCount]

/-- C7: `Update` returns false and records the stream end exactly when the
current frame is finished and the decoder's fetch yields the empty frame;
with a non-empty frame after the conditional fetch it returns true. -/
theorem decodeIfFrameEmpty_fst (st : AOState) :
    (DecodeIfFrameEmpty st).1 =
      if FrameFinished st then !(decodeHead st).isEmpty
      else !st.frame.isEmpty := by
  obtain ⟨f, fi, rb, pos, fe, dq⟩ := st
  by_cases h : FrameFinished ⟨f, fi, rb, pos, fe, dq⟩ <;>
    cases dq <;>
    simp [DecodeIfFrameEmpty, Decode, decodeHead, h]

theorem c7_update_return (cfg : Config) (st : AOState) :
    (FrameFinished st = true → decodeHead st = [] →
      ∃ st2, Update cfg st = Except.ok (false, st2) ∧
        st2.fileEnded = true) ∧
    (FrameFinished st = true → decodeHead st ≠ [] →
      ∃ st2, Update cfg st = Except.ok (true, st2)) ∧
    (FrameFinished st = false →
      ∃ st2, Update cfg st = Except.ok (true, st2)) := by
  obtain ⟨b, st2, hu, hf⟩ := update_ok cfg st
  have hb : b = (DecodeIfFrameEmpty st).1 := by
    unfold Update at hu
    by_cases h : (DecodeIfFrameEmpty st).1
    · rw [if_pos h] at hu
      obtain ⟨st3, h3⟩ := writeAllAvailable_ok cfg (DecodeIfFrameEmpty st).2
      rw [h3] at hu
      cases hu
      rw [h]
    · rw [if_neg h] at hu
      cases hu
      simp [h]
  refine ⟨?_, ?_, ?_⟩
  · intro hfin hhead
    have hfst : (DecodeIfFrameEmpty st).1 = false := by
      rw [decodeIfFrameEmpty_fst, if_pos hfin, hhead]
      rfl
    rw [hfst] at hb
    subst hb
    exact ⟨st2, hu, by simpa using hf⟩
  · intro hfin hhead
    have hfst : (DecodeIfFrameEmpty st).1 = true := by
      rw [decodeIfFrameEmpty_fst, if_pos hfin]
      simp [List.isEmpty_iff, hhead]
    rw [hfst] at hb
    subst hb
    exact ⟨st2, hu⟩
  · intro hfin
    have hne : st.frame ≠ [] := by
      intro hnil
      rw [FrameFinished, hnil] at hfin
      simp at hfin
    have hfst : (DecodeIfFrameEmpty st).1 = true := by
      rw [decodeIfFrameEmpty_fst, if_neg (by simp [hfin])]
      simp [List.isEmpty_iff, hne]
    rw [hfst] at hb
    subst hb
    exact ⟨st2, hu⟩

/-- Witness for C7 at concrete inputs covering all three cases: a finished
frame with an exhausted decoder, a finished frame with a decoder holding
one more frame, and an unfinished frame. -/
theorem c7_update_return_witness :
    (∃ st2, Update ⟨1, 8, 4⟩ ⟨[], 0, [], 0, false, []⟩ =
        Except.ok (false, st2) ∧ st2.fileEnded = true) ∧
    (∃ st2, Update ⟨1, 8, 4⟩ ⟨[], 0, [], 0, false, [[5]]⟩ =
        Except.ok (true, st2)) ∧
    (∃ st2, Update ⟨1, 8, 4⟩ ⟨[5, 6], 1, [], 0, false, []⟩ =
        Except.ok (true, st2)) :=
  ⟨(c7_update_return ⟨1, 8, 4⟩ ⟨[], 0, [], 0, false, []⟩).1
      (by decide) (by decide),
   (c7_update_return ⟨1, 8, 4⟩ ⟨[], 0, [], 0, false, [[5]]⟩).2.1
      (by decide) (by decide),
   (c7_update_return ⟨1, 8, 4⟩ ⟨[5, 6], 1, [], 0, false, []⟩).2.2
      (by decide)⟩

/-- C10: with an empty frame, iterator at its end, and an exhausted
decoder, `Update` only sets the stream-ended flag — the ring buffer, frame,
play position and decoder state are untouched, it returns false, and a
repeated `Update` returns the very same state, so post-exhaustion updates
are idempotent. -/
theorem c10_update_idempotent_after_exhaustion (cfg : Config) (st : AOState)
    (h1 : st.frame = []) (h2 : st.frameIt = 0) (h3 : st.decoderQueue = []) :
    Update cfg st = Except.ok (false, { st with fileEnded := true }) ∧
    Update cfg { st with fileEnded := true } =
      Except.ok (false, { st with fileEnded := true }) := by
  obtain ⟨f, fi, rb, pos, fe, dq⟩ := st
  simp only at h1 h2 h3
  subst h1; subst h2; subst h3
  exact ⟨rfl, rfl⟩

/-- Witness for C10 at a concrete exhausted state. -/
theorem c10_update_idempotent_after_exhaustion_witness :
    Update ⟨1, 8, 4⟩ ⟨[], 0, [1, 2], 7, false, []⟩ =
      Except.ok (false, ⟨[], 0, [1, 2], 7, true, []⟩) ∧
    Update ⟨1, 8, 4⟩ ⟨[], 0, [1, 2], 7, true, []⟩ =
      Except.ok (false, ⟨[], 0, [1, 2], 7, true, []⟩) :=
  c10_update_idempotent_after_exhaustion ⟨1, 8, 4⟩
    ⟨[], 0, [1, 2], 7, false, []⟩ rfl rfl rfl

end Playslave

namespace Playslave

/-- C3: after a drain step (the success branch of a callback step, taken
when the read capacity is non-zero), the play position has advanced by
exactly the number of samples the ring buffer's `Read` actually copied
into the destination in that step. -/
theorem c3_position_advance (cfg : Config) (st : AOState) (dst : List Nat)
    (outOff frames_per_buf : Nat) (ins : PaResult × Nat)
    (h : ReadCapacity cfg st ≠ 0) :
    ((PlayCallbackStep cfg st dst outOff frames_per_buf
        ins).2.2).positionSampleCount =
      st.positionSampleCount +
        (ringRead cfg st (min (min (ReadCapacity cfg st)
          (frames_per_buf - ins.2)) LONG_MAX)).1 := by
  have hT : min (min (ReadCapacity cfg st) (frames_per_buf - ins.2))
      LONG_MAX ≤ ReadCapacity cfg st :=
    le_trans (Nat.min_le_left _ _) (Nat.min_le_left _ _)
  unfold PlayCallbackStep
  rw [if_neg h]
  unfold PlayCallbackSuccess ReadSamplesToOutput ringRead
  simp [Nat.min_eq_left hT]

/-- Witness for C3: one sample available, two requested; the position
advances by the one copied sample. -/
theorem c3_position_advance_witness :
    ((PlayCallbackStep ⟨1, 8, 4⟩ ⟨[], 0, [5], 0, false, []⟩ [9, 9] 0 2
        (PaResult.paContinue, 0)).2.2).positionSampleCount =
      (⟨[], 0, [5], 0, false, []⟩ : AOState).positionSampleCount +
        (ringRead ⟨1, 8, 4⟩ ⟨[], 0, [5], 0, false, []⟩
          (min (min (ReadCapacity ⟨1, 8, 4⟩ ⟨[], 0, [5], 0, false, []⟩)
            (2 - (PaResult.paContinue, 0).2)) LONG_MAX)).1 :=
  c3_position_advance ⟨1, 8, 4⟩ ⟨[], 0, [5], 0, false, []⟩ [9, 9] 0 2
    (PaResult.paContinue, 0) (by decide)

theorem advanceFrameIterator_inv (cfg : Config) (st : AOState) (sc : Nat) :
    (AdvanceFrameIterator cfg st sc).frame = [] ∨
    (AdvanceFrameIterator cfg st sc).frameIt <
      (AdvanceFrameIterator cfg st sc).frame.length := by
  rcases advanceFrameIterator_cases cfg st sc with h | h
  · exact Or.inl h.1
  · refine Or.inr ?_
    rw [h.1]
    exact h.2.2

theorem writeAllAvailable_inv (cfg : Config) (st st3 : AOState)
    (hok : WriteAllAvailableToRingBuffer cfg st = Except.ok st3)
    (hinv : st.frame = [] ∨ st.frameIt < st.frame.length) :
    st3.frame = [] ∨ st3.frameIt < st3.frame.length := by
  unfold WriteAllAvailableToRingBuffer at hok
  by_cases hc : 0 < RingBufferTransferCount cfg st
  · rw [if_pos hc,
      writeToRingBuffer_eq_ok cfg st (RingBufferTransferCount cfg st)
        (by unfold RingBufferTransferCount; exact Nat.min_le_right _ _)]
      at hok
    cases hok
    exact advanceFrameIterator_inv cfg _ _
  · rw [if_neg hc] at hok
    cases hok
    exact hinv

theorem decodeIfFrameEmpty_true_inv (st : AOState)
    (h : (DecodeIfFrameEmpty st).1 = true) :
    (DecodeIfFrameEmpty st).2.frameIt <
      (DecodeIfFrameEmpty st).2.frame.length := by
  obtain ⟨f, fi, rb, pos, fe, dq⟩ := st
  by_cases hfin : FrameFinished ⟨f, fi, rb, pos, fe, dq⟩
  · cases dq with
    | nil =>
        rw [DecodeIfFrameEmpty, if_pos hfin] at h
        simp [Decode] at h
    | cons g rest =>
        rw [DecodeIfFrameEmpty, if_pos hfin] at h ⊢
        simp [Decode] at h ⊢
        exact List.length_pos.mpr h
  · rw [DecodeIfFrameEmpty, if_neg hfin]
    simp [FrameFinished] at hfin
    simpa using hfin

/-- C4 (amended): after every `Update` call, either the current frame is
empty or its read cursor lies at or after the frame's start and strictly
before its end.  The original strictly-between claim fails when a freshly
fetched frame cannot be written because the ring buffer is full; see the
counterexample. -/
theorem c4_cursor_invariant (cfg : Config) (st : AOState) (b : Bool)
    (st2 : AOState) (h : Update cfg st = Except.ok (b, st2)) :
    st2.frame = [] ∨
    (0 ≤ st2.frameIt ∧ st2.frameIt < st2.frame.length) := by
  unfold Update at h
  by_cases hp : (DecodeIfFrameEmpty st).1
  · rw [if_pos hp] at h
    rcases hw : WriteAllAvailableToRingBuffer cfg (DecodeIfFrameEmpty st).2
        with e | st3
    · rw [hw] at h
      exact absurd h (by simp)
    · rw [hw] at h
      simp only [Except.ok.injEq, Prod.mk.injEq] at h
      obtain ⟨hb, hst⟩ := h
      subst hst
      have := writeAllAvailable_inv cfg (DecodeIfFrameEmpty st).2 st3 hw
        (Or.inr (decodeIfFrameEmpty_true_inv st hp))
      rcases this with h1 | h1
      · exact Or.inl h1
      · exact Or.inr ⟨Nat.zero_le _, h1⟩
  · rw [if_neg hp] at h
    simp only [Except.ok.injEq, Prod.mk.injEq] at h
    obtain ⟨hb, hst⟩ := h
    subst hst
    refine Or.inl ?_
    have hfe : (DecodeIfFrameEmpty st).1 =
        !((DecodeIfFrameEmpty st).2.frame).isEmpty := by
      obtain ⟨f, fi, rb, pos, fe, dq⟩ := st
      by_cases hfin : FrameFinished ⟨f, fi, rb, pos, fe, dq⟩ <;>
        cases dq <;>
        simp [DecodeIfFrameEmpty, Decode, hfin]
    rw [hfe] at hp
    simpa [List.isEmpty_iff] using hp

/-- Witness for C4 at a concrete input: the first `Update` from the
constructor state. -/
theorem c4_cursor_invariant_witness :
    (⟨[], 0, [1, 2], 0, false, [[3, 4]]⟩ : AOState).frame = [] ∨
    (0 ≤ (⟨[], 0, [1, 2], 0, false, [[3, 4]]⟩ : AOState).frameIt ∧
      (⟨[], 0, [1, 2], 0, false, [[3, 4]]⟩ : AOState).frameIt <
        (⟨[], 0, [1, 2], 0, false, [[3, 4]]⟩ : AOState).frame.length) :=
  c4_cursor_invariant ⟨1, 2, 4⟩ (initState [[1, 2], [3, 4]]) true
    ⟨[], 0, [1, 2], 0, false, [[3, 4]]⟩ rfl

/-- C4 counterexample: with a two-sample buffer, the second `Update` from
the constructor state fetches a new frame but writes nothing because the
ring buffer is full, leaving a non-empty frame whose cursor equals the
frame's start — refuting the claim that the cursor is never equal to the
start of a non-empty frame after `Update`. -/
theorem c4_counterexample :
    ∃ st1 st2,
      Update ⟨1, 2, 4⟩ (initState [[1, 2], [3, 4]]) =
        Except.ok (true, st1) ∧
      Update ⟨1, 2, 4⟩ st1 = Except.ok (true, st2) ∧
      ¬(st2.frame = [] ∨
        (0 < st2.frameIt ∧ st2.frameIt < st2.frame.length)) :=
  ⟨⟨[], 0, [1, 2], 0, false, [[3, 4]]⟩,
   ⟨[3, 4], 0, [1, 2], 0, false, []⟩, rfl, rfl, by decide⟩

/-- C1 (code bug): a callback invocation satisfied over two drain steps —
the ring buffer holds sample 5, and the producer adds sample 6 between the
steps — counts both requested frames but leaves the destination as
`[6, 9]`: the second drain step wrote at the buffer start again, because
the output pointer advanced inside `ReadSamplesToOutput` is discarded
along the by-value parameter chain back to `paCallbackFun`, so the two
supplied frames do not occupy two consecutive destination slots
(`[5, 6]`). -/
theorem c1_destination_pointer_not_advanced :
    paCallbackFun ⟨1, 8, 4⟩ [[], [6]] ⟨[], 0, [5], 0, false, []⟩ [9, 9] 2 =
      ((PaResult.paContinue, 2), [6, 9], ⟨[], 0, [], 2, false, []⟩) ∧
    ([6, 9] : List Nat) ≠ [5, 6] :=
  ⟨rfl, by decide⟩

/-- C2 (code bug): an underrun after one of two requested samples was
already supplied (ring buffer holds sample 7, stream not ended) makes
`PlayCallbackFailure` zero the full request's byte count at the original
buffer start, so the already-written sample 7 is overwritten: the
destination ends as `[0, 0]`, not `[7, 0]`, though the step does signal
continue with the full request counted as satisfied. -/
theorem c2_silence_overwrites_supplied :
    paCallbackFun ⟨1, 8, 4⟩ [] ⟨[], 0, [7], 0, false, []⟩ [9, 9] 2 =
      ((PaResult.paContinue, 2), [0, 0], ⟨[], 0, [], 1, false, []⟩) ∧
    ([0, 0] : List Nat) ≠ [7, 0] :=
  ⟨rfl, by decide⟩

/-- C8: with zero read capacity and the stream ended, a callback step
returns the complete outcome, keeps the supplied-sample count, and writes
nothing further; and on the spec's worked example (capacity 8 samples,
2 bytes per sample, one five-sample frame then exhaustion, 6 frames
requested) the callback drains the 5 buffered samples into the first five
destination slots and returns complete having filled 5 of 6. -/
theorem c8_complete_on_stream_end :
    (∀ (cfg : Config) (st : AOState) (dst : List Nat)
        (outOff frames_per_buf : Nat) (ins : PaResult × Nat),
        ReadCapacity cfg st = 0 → st.fileEnded = true →
        PlayCallbackStep cfg st dst outOff frames_per_buf ins =
          ((PaResult.paComplete, ins.2), dst, st)) ∧
    (Update ⟨2, 8, 4⟩ (initState [[1, 2, 3, 4, 5, 6, 7, 8, 9, 10]]) =
        Except.ok (true,
          ⟨[], 0, [1, 2, 3, 4, 5, 6, 7, 8, 9, 10], 0, false, []⟩) ∧
      Update ⟨2, 8, 4⟩ ⟨[], 0, [1, 2, 3, 4, 5, 6, 7, 8, 9, 10], 0, false, []⟩
          = Except.ok (false,
            ⟨[], 0, [1, 2, 3, 4, 5, 6, 7, 8, 9, 10], 0, true, []⟩) ∧
      paCallbackFun ⟨2, 8, 4⟩ []
          ⟨[], 0, [1, 2, 3, 4, 5, 6, 7, 8, 9, 10], 0, true, []⟩
          (List.replicate 12 9) 6 =
        ((PaResult.paComplete, 5),
         [1, 2, 3, 4, 5, 6, 7, 8, 9, 10, 9, 9],
         ⟨[], 0, [], 5, true, []⟩)) := by
  constructor
  · intro cfg st dst outOff frames_per_buf ins h1 h2
    unfold PlayCallbackStep
    rw [if_pos h1]
    unfold PlayCallbackFailure
    rw [h2]
    simp
  · exact ⟨rfl, rfl, rfl⟩

/-- Witness for C8 applying its universal part at a concrete drained,
ended state. -/
theorem c8_complete_on_stream_end_witness :
    PlayCallbackStep ⟨2, 8, 4⟩ ⟨[], 0, [], 5, true, []⟩
        [1, 2, 3, 4, 5, 6, 7, 8, 9, 10, 9, 9] 0 6 (PaResult.paContinue, 5) =
      ((PaResult.paComplete, 5), [1, 2, 3, 4, 5, 6, 7, 8, 9, 10, 9, 9],
       ⟨[], 0, [], 5, true, []⟩) :=
  c8_complete_on_stream_end.1 ⟨2, 8, 4⟩ ⟨[], 0, [], 5, true, []⟩
    [1, 2, 3, 4, 5, 6, 7, 8, 9, 10, 9, 9] 0 6 (PaResult.paContinue, 5)
    (by decide) rfl

end Playslave

namespace Playslave

theorem writeCapacity_eq (cfg : Config) (st : AOState) :
    RingBufferWriteCapacity cfg st = cfg.cap - ReadCapacity cfg st := rfl

theorem advanceFrameIterator_fields (cfg : Config) (st : AOState)
    (sc : Nat) :
    (AdvanceFrameIterator cfg st sc).ringBuf = st.ringBuf ∧
    (AdvanceFrameIterator cfg st sc).positionSampleCount =
      st.positionSampleCount ∧
    (AdvanceFrameIterator cfg st sc).decoderQueue = st.decoderQueue := by
  unfold AdvanceFrameIterator
  by_cases h : FrameFinished { st with
      frameIt := st.frameIt + ByteCountForSampleCount cfg sc } <;>
    simp [h, ClearFrame]

theorem decodeIfFrameEmpty_fields (st : AOState) :
    (DecodeIfFrameEmpty st).2.ringBuf = st.ringBuf ∧
    (DecodeIfFrameEmpty st).2.positionSampleCount =
      st.positionSampleCount ∧
    (((DecodeIfFrameEmpty st).2.frame = st.frame ∧
        (DecodeIfFrameEmpty st).2.frameIt = st.frameIt ∧
        (DecodeIfFrameEmpty st).2.decoderQueue = st.decoderQueue) ∨
      ((DecodeIfFrameEmpty st).2.frame = decodeHead st ∧
        (DecodeIfFrameEmpty st).2.frameIt = 0 ∧
        (DecodeIfFrameEmpty st).2.decoderQueue = st.decoderQueue.tail)) := by
  obtain ⟨f, fi, rb, pos, fe, dq⟩ := st
  by_cases hfin : FrameFinished ⟨f, fi, rb, pos, fe, dq⟩ <;>
    cases dq <;>
    simp [DecodeIfFrameEmpty, Decode, decodeHead, hfin]

theorem decodeIfFrameEmpty_ws (cfg : Config) (st : AOState)
    (hws : WholeSamples cfg st) :
    WholeSamples cfg (DecodeIfFrameEmpty st).2 := by
  obtain ⟨h1, h2, h3, h4, h5⟩ := hws
  obtain ⟨e1, e2, e3⟩ := decodeIfFrameEmpty_fields st
  rcases e3 with ⟨f1, f2, f3⟩ | ⟨f1, f2, f3⟩
  · exact ⟨by rw [e1]; exact h1, by rw [e1]; exact h2,
      by rw [f1]; exact h3, by rw [f2]; exact h4, by rw [f3]; exact h5⟩
  · refine ⟨by rw [e1]; exact h1, by rw [e1]; exact h2, ?_,
      by rw [f2]; exact dvd_zero _, ?_⟩
    · rw [f1]
      unfold decodeHead
      cases hq : st.decoderQueue with
      | nil => simp
      | cons g rest => exact h5 g (by rw [hq]; exact List.mem_cons_self g rest)
    · rw [f3]
      intro g hg
      exact h5 g (List.mem_of_mem_tail hg)

theorem advanceFrameIterator_ringBuf (cfg : Config) (st : AOState)
    (sc : Nat) :
    (AdvanceFrameIterator cfg st sc).ringBuf = st.ringBuf := by
  unfold AdvanceFrameIterator
  by_cases h : FrameFinished { st with
      frameIt := st.frameIt + ByteCountForSampleCount cfg sc } <;>
    simp [h, ClearFrame]

theorem advanceFrameIterator_queue (cfg : Config) (st : AOState)
    (sc : Nat) :
    (AdvanceFrameIterator cfg st sc).decoderQueue = st.decoderQueue := by
  unfold AdvanceFrameIterator
  by_cases h : FrameFinished { st with
      frameIt := st.frameIt + ByteCountForSampleCount cfg sc } <;>
    simp [h, ClearFrame]

theorem advanceFrameIterator_dvd (cfg : Config) (st : AOState) (sc : Nat)
    (hf : cfg.bps ∣ st.frame.length) (hit : cfg.bps ∣ st.frameIt) :
    cfg.bps ∣ (AdvanceFrameIterator cfg st sc).frame.length ∧
    cfg.bps ∣ (AdvanceFrameIterator cfg st sc).frameIt := by
  rcases advanceFrameIterator_cases cfg st sc with hc | hc
  · rw [hc.1, hc.2]
    exact ⟨dvd_zero _, dvd_zero _⟩
  · rw [hc.1, hc.2.1]
    refine ⟨hf, dvd_add hit ?_⟩
    unfold ByteCountForSampleCount
    exact dvd_mul_left _ _

theorem writeAllAvailable_pos_spec (cfg : Config) (st : AOState)
    (hcnt : 0 < RingBufferTransferCount cfg st)
    (hlen : RingBufferTransferCount cfg st * cfg.bps ≤
      st.frame.length - st.frameIt) :
    ∃ st2, WriteAllAvailableToRingBuffer cfg st = Except.ok st2 ∧
      st2.ringBuf.length = st.ringBuf.length +
        RingBufferTransferCount cfg st * cfg.bps ∧
      st2.decoderQueue = st.decoderQueue ∧
      (cfg.bps ∣ st.frame.length → cfg.bps ∣ st.frameIt →
        cfg.bps ∣ st2.frame.length ∧ cfg.bps ∣ st2.frameIt) := by
  have hcle : RingBufferTransferCount cfg st ≤
      RingBufferWriteCapacity cfg st := by
    unfold RingBufferTransferCount
    exact Nat.min_le_right _ _
  obtain ⟨st2, hok⟩ := writeAllAvailable_ok cfg st
  have hok2 := hok
  unfold WriteAllAvailableToRingBuffer at hok2
  rw [if_pos hcnt,
    writeToRingBuffer_eq_ok cfg st (RingBufferTransferCount cfg st) hcle]
    at hok2
  injection hok2 with hadv
  refine ⟨st2, hok, ?_, ?_, ?_⟩
  · rw [← hadv, advanceFrameIterator_ringBuf]
    simp [Nat.min_eq_left hlen]
  · rw [← hadv, advanceFrameIterator_queue]
  · intro hf hit
    rw [← hadv]
    exact advanceFrameIterator_dvd cfg _ _ hf hit

theorem update_progress (cfg : Config) (st st2 : AOState)
    (hbps : 0 < cfg.bps) (hws : WholeSamples cfg st)
    (hcap : 0 < RingBufferWriteCapacity cfg st)
    (h : Update cfg st = Except.ok (true, st2)) :
    WholeSamples cfg st2 ∧ ReadCapacity cfg st < ReadCapacity cfg st2 := by
  unfold Update at h
  by_cases hp : (DecodeIfFrameEmpty st).1
  case neg => rw [if_neg hp] at h; simp at h
  rw [if_pos hp] at h
  obtain ⟨hqr, hqp, hqcase⟩ := decodeIfFrameEmpty_fields st
  obtain ⟨hd1, hd2, hd3, hd4, hd5⟩ := decodeIfFrameEmpty_ws cfg st hws
  have hqlt := decodeIfFrameEmpty_true_inv st hp
  have hrem : cfg.bps ∣ ((DecodeIfFrameEmpty st).2.frame.length -
      (DecodeIfFrameEmpty st).2.frameIt) := Nat.dvd_sub' hd3 hd4
  have hrempos : 0 < (DecodeIfFrameEmpty st).2.frame.length -
      (DecodeIfFrameEmpty st).2.frameIt := Nat.sub_pos_of_lt hqlt
  have hbpsle := Nat.le_of_dvd hrempos hrem
  have hcapq : RingBufferWriteCapacity cfg (DecodeIfFrameEmpty st).2 =
      RingBufferWriteCapacity cfg st := by
    unfold RingBufferWriteCapacity SampleCountForByteCount
    rw [hqr]
  have hcnt : 0 < RingBufferTransferCount cfg (DecodeIfFrameEmpty st).2 := by
    unfold RingBufferTransferCount
    rw [hcapq]
    refine lt_min ?_ hcap
    unfold SampleCountForByteCount
    exact (Nat.one_le_div_iff hbps).mpr hbpsle
  have hlenle : RingBufferTransferCount cfg (DecodeIfFrameEmpty st).2 *
      cfg.bps ≤ (DecodeIfFrameEmpty st).2.frame.length -
        (DecodeIfFrameEmpty st).2.frameIt := by
    have h1 : RingBufferTransferCount cfg (DecodeIfFrameEmpty st).2 ≤
        SampleCountForByteCount cfg
          ((DecodeIfFrameEmpty st).2.frame.length -
            (DecodeIfFrameEmpty st).2.frameIt) := by
      unfold RingBufferTransferCount
      exact Nat.min_le_left _ _
    calc RingBufferTransferCount cfg (DecodeIfFrameEmpty st).2 * cfg.bps
        ≤ SampleCountForByteCount cfg
            ((DecodeIfFrameEmpty st).2.frame.length -
              (DecodeIfFrameEmpty st).2.frameIt) * cfg.bps :=
          Nat.mul_le_mul_right _ h1
      _ ≤ _ := Nat.div_mul_le_self _ _
  obtain ⟨st3, hok, hring3, hq3, hdvd3⟩ :=
    writeAllAvailable_pos_spec cfg (DecodeIfFrameEmpty st).2 hcnt hlenle
  rw [hok] at h
  simp only [Except.ok.injEq, Prod.mk.injEq, true_and] at h
  subst h
  obtain ⟨hdf, hdi⟩ := hdvd3 hd3 hd4
  have hrc : ReadCapacity cfg st * cfg.bps = st.ringBuf.length :=
    Nat.div_mul_cancel hws.1
  have hele : ReadCapacity cfg st ≤ cfg.cap := by
    have hd := Nat.div_le_div_right (c := cfg.bps) hws.2.1
    rwa [Nat.mul_div_cancel _ hbps] at hd
  have hcnt2 : RingBufferTransferCount cfg (DecodeIfFrameEmpty st).2 ≤
      cfg.cap - ReadCapacity cfg st := by
    have hcle : RingBufferTransferCount cfg (DecodeIfFrameEmpty st).2 ≤
        RingBufferWriteCapacity cfg (DecodeIfFrameEmpty st).2 := by
      unfold RingBufferTransferCount
      exact Nat.min_le_right _ _
    rw [hcapq, writeCapacity_eq] at hcle
    exact hcle
  have hring3b : st3.ringBuf.length = st.ringBuf.length +
      RingBufferTransferCount cfg (DecodeIfFrameEmpty st).2 * cfg.bps := by
    rw [hring3, hqr]
  constructor
  · refine ⟨?_, ?_, hdf, hdi, ?_⟩
    · show cfg.bps ∣ st3.ringBuf.length
      rw [hring3b]
      exact dvd_add hws.1 (dvd_mul_left _ _)
    · show st3.ringBuf.length ≤ cfg.cap * cfg.bps
      rw [hring3b]
      have hsum : ReadCapacity cfg st +
          RingBufferTransferCount cfg (DecodeIfFrameEmpty st).2 ≤
            cfg.cap := by omega
      calc st.ringBuf.length +
            RingBufferTransferCount cfg (DecodeIfFrameEmpty st).2 * cfg.bps
          = (ReadCapacity cfg st +
              RingBufferTransferCount cfg (DecodeIfFrameEmpty st).2) *
              cfg.bps := by rw [Nat.add_mul, hrc]
        _ ≤ cfg.cap * cfg.bps := Nat.mul_le_mul_right _ hsum
    · show ∀ f ∈ st3.decoderQueue, cfg.bps ∣ f.length
      rw [hq3]
      exact hd5
  · show ReadCapacity cfg st < SampleCountForByteCount cfg st3.ringBuf.length
    unfold SampleCountForByteCount
    rw [hring3b, Nat.add_mul_div_right _ _ hbps]
    have : 0 < RingBufferTransferCount cfg (DecodeIfFrameEmpty st).2 := hcnt
    unfold ReadCapacity SampleCountForByteCount
    omega

end Playslave

namespace Playslave

theorem preFillGuard_false_more (cfg : Config) (st : AOState) :
    PreFillGuard cfg false st = false := by
  simp [PreFillGuard]

theorem guard_false_post (cfg : Config) (st : AOState)
    (hspin : cfg.spin ≤ cfg.cap)
    (hg : PreFillGuard cfg true st = false) :
    cfg.spin ≤ cfg.cap - RingBufferWriteCapacity cfg st := by
  unfold PreFillGuard at hg
  simp only [Bool.true_and, Bool.and_eq_false_iff, decide_eq_false_iff_not,
    Nat.not_lt, Nat.not_lt_eq] at hg
  rcases hg with hg | hg
  · have hc0 : RingBufferWriteCapacity cfg st = 0 := by omega
    omega
  · exact hg

theorem preFill_aux (cfg : Config) (hbps : 0 < cfg.bps)
    (hspin : cfg.spin ≤ cfg.cap) :
    ∀ (k : Nat) (st : AOState), WholeSamples cfg st →
      cfg.cap - ReadCapacity cfg st ≤ k →
      ∃ n st2, PreFillLoop cfg n true st = Except.ok (some st2) ∧
        (st2.fileEnded = true ∨
          cfg.spin ≤ cfg.cap - RingBufferWriteCapacity cfg st2) := by
  intro k
  induction k with
  | zero =>
      intro st hws hk
      have hg : PreFillGuard cfg true st = false := by
        have hc0 : RingBufferWriteCapacity cfg st = 0 := by
          rw [writeCapacity_eq]
          omega
        simp [PreFillGuard, hc0]
      refine ⟨1, st, ?_, Or.inr (guard_false_post cfg st hspin hg)⟩
      unfold PreFillLoop
      rw [if_neg (by rw [hg]; exact Bool.false_ne_true)]
  | succ k ih =>
      intro st hws hk
      by_cases hg : PreFillGuard cfg true st = true
      · obtain ⟨b, st2, hu, hf⟩ := update_ok cfg st
        cases b with
        | false =>
            refine ⟨2, st2, ?_, Or.inl (by simpa using hf)⟩
            show PreFillLoop cfg 2 true st = Except.ok (some st2)
            unfold PreFillLoop
            rw [if_pos hg, hu]
            unfold PreFillLoop
            rw [if_neg (by
              rw [preFillGuard_false_more]
              exact Bool.false_ne_true)]
        | true =>
            have hcap : 0 < RingBufferWriteCapacity cfg st := by
              by_contra hc
              have hc0 : RingBufferWriteCapacity cfg st = 0 := by omega
              rw [PreFillGuard] at hg
              simp [hc0] at hg
            obtain ⟨hws2, hlt⟩ := update_progress cfg st st2 hbps hws hcap hu
            have hrcle : ReadCapacity cfg st < cfg.cap := by
              rw [writeCapacity_eq] at hcap
              omega
            have hk2 : cfg.cap - ReadCapacity cfg st2 ≤ k := by omega
            obtain ⟨n, st3, hn, hp⟩ := ih st2 hws2 hk2
            refine ⟨n + 1, st3, ?_, hp⟩
            show PreFillLoop cfg (n + 1) true st = Except.ok (some st3)
            unfold PreFillLoop
            rw [if_pos hg, hu]
            exact hn
      · have hg2 : PreFillGuard cfg true st = false := by
          cases hq : PreFillGuard cfg true st
          · rfl
          · exact absurd hq hg
        refine ⟨1, st, ?_, Or.inr (guard_false_post cfg st hspin hg2)⟩
        unfold PreFillLoop
        rw [if_neg (by rw [hg2]; exact Bool.false_ne_true)]

/-- C9 (amended): whenever every frame the decoder yields consists of
whole samples (its byte length a multiple of the sample width) and the
engine state sits on sample boundaries, `PreFillRingBuffer` terminates,
and at exit either the last `Update` reported exhaustion (the stream-ended
flag is set) or the ring buffer's filled amount (size minus free write
capacity) has reached the spin-up threshold.  The original hypothesis —
merely one whole sample per non-empty frame — does not suffice; see the
counterexample. -/
theorem c9_prefill_terminates (cfg : Config) (st : AOState)
    (hbps : 0 < cfg.bps) (hspin : cfg.spin ≤ cfg.cap)
    (hws : WholeSamples cfg st) :
    ∃ n st2, PreFillLoop cfg n true st = Except.ok (some st2) ∧
      (st2.fileEnded = true ∨
        cfg.spin ≤ cfg.cap - RingBufferWriteCapacity cfg st2) :=
  preFill_aux cfg hbps hspin (cfg.cap - ReadCapacity cfg st) st hws le_rfl

/-- Witness for C9 at a concrete input: a two-byte-per-sample stream whose
decoder yields one four-byte (two-sample) frame. -/
theorem c9_prefill_terminates_witness :
    ∃ n st2, PreFillLoop ⟨2, 8, 4⟩ n true (initState [[1, 2, 3, 4]]) =
        Except.ok (some st2) ∧
      (st2.fileEnded = true ∨
        (4 : Nat) ≤ 8 - RingBufferWriteCapacity ⟨2, 8, 4⟩ st2) :=
  c9_prefill_terminates ⟨2, 8, 4⟩ (initState [[1, 2, 3, 4]]) (by decide)
    (by decide) (by
      refine ⟨⟨0, rfl⟩, by decide, ⟨0, rfl⟩, ⟨0, rfl⟩, ?_⟩
      intro f hf
      simp [initState] at hf
      rw [hf]
      exact ⟨2, rfl⟩)

theorem preFillLoop_stuck (cfg : Config) (st : AOState)
    (hg : PreFillGuard cfg true st = true)
    (hu : Update cfg st = Except.ok (true, st)) :
    ∀ n, PreFillLoop cfg n true st = Except.ok none := by
  intro n
  induction n with
  | zero => rfl
  | succ n ih =>
      unfold PreFillLoop
      rw [if_pos hg, hu]
      exact ih

/-- C9 counterexample: with two-byte samples, a decoder yielding a single
three-byte frame — which does contain at least one whole sample, so the
claim's hypothesis holds — makes the pre-fill loop spin forever: the first
iteration writes the frame's one whole sample, and every later `Update`
finds the unfinished frame holding a partial sample, computes a zero
transfer count, and leaves the state unchanged, so no fuel bound reaches
the loop's exit. -/
theorem c9_counterexample :
    (∀ f ∈ [[(1 : Nat), 2, 3]], f ≠ [] → 2 ≤ f.length) ∧
    ¬∃ n st2, PreFillLoop ⟨2, 8, 4⟩ n true (initState [[1, 2, 3]]) =
      Except.ok (some st2) := by
  refine ⟨by decide, ?_⟩
  rintro ⟨n, st2, h⟩
  have hall : ∀ m, PreFillLoop ⟨2, 8, 4⟩ m true (initState [[1, 2, 3]]) =
      Except.ok none := by
    intro m
    cases m with
    | zero => rfl
    | succ m =>
        have hstep : PreFillLoop ⟨2, 8, 4⟩ (m + 1) true
            (initState [[1, 2, 3]]) =
            PreFillLoop ⟨2, 8, 4⟩ m true
              ⟨[1, 2, 3], 2, [1, 2], 0, false, []⟩ := rfl
        rw [hstep]
        exact preFillLoop_stuck ⟨2, 8, 4⟩
          ⟨[1, 2, 3], 2, [1, 2], 0, false, []⟩ rfl rfl m
  rw [hall n] at h
  simp at h

end Playslave

